/-
Verification of the signal-fusion and reporting pipeline of the
ai-hedge-fund-crypto strategies.

The embedding covers:
  * Python string-keyed dictionaries as association lists with Python's
    insert/replace semantics (`dictInsert`, `dictModify`, `dictLookup`);
  * JSON-like values (`JValue`) for the analysis records the strategies
    assemble;
  * Python's `round` (round-half-to-even on exact rationals) as `pyRound`;
  * the Signal Fusion Engine `weighted_signal_combination` (its source lives
    in the repository's `indicators` module, outside the visible files, so it
    is modelled from the specification);
  * the bodies of `EMAStrategy.__call__` (src/strategies/ema_strategy.py) and
    `RSIStrategy.__call__` (src/strategies/rsi_strategy.py), with the
    indicator-calculation functions treated as opaque collaborators
    (an `Indicators` bundle of arbitrary total functions).
-/
import Mathlib

set_option linter.unusedVariables false

/-! ## Python-style string-keyed dictionaries as association lists -/

/-- Lookup of a key in a Python-style dict (first, hence only, occurrence). -/
def dictLookup {α : Type} (k : String) : List (String × α) → Option α
  | [] => none
  | p :: rest => if p.1 = k then some p.2 else dictLookup k rest

/-- Python `d[k] = v`: replace the value at `k` in place if present,
otherwise append the new binding at the end (insertion order preserved). -/
def dictInsert {α : Type} (k : String) (v : α) : List (String × α) → List (String × α)
  | [] => [(k, v)]
  | p :: rest => if p.1 = k then (k, v) :: rest else p :: dictInsert k v rest

/-- Python `f(d[k])`-style in-place update of the value stored at `k`
(no-op when the key is absent; the strategies only update keys they
initialised first). -/
def dictModify {α : Type} (k : String) (f : α → α) : List (String × α) → List (String × α)
  | [] => []
  | p :: rest => if p.1 = k then (p.1, f p.2) :: rest else p :: dictModify k f rest

/-- The key list of a dict, in insertion order. -/
def dictKeys {α : Type} (l : List (String × α)) : List String := l.map Prod.fst

@[simp] theorem dictKeys_nil {α : Type} : dictKeys ([] : List (String × α)) = [] := rfl

@[simp] theorem dictKeys_cons {α : Type} (p : String × α) (l : List (String × α)) :
    dictKeys (p :: l) = p.1 :: dictKeys l := rfl

@[simp] theorem dictKeys_append {α : Type} (l1 l2 : List (String × α)) :
    dictKeys (l1 ++ l2) = dictKeys l1 ++ dictKeys l2 := List.map_append Prod.fst l1 l2

theorem dictInsert_of_not_mem {α : Type} {k : String} (v : α) {l : List (String × α)}
    (h : k ∉ dictKeys l) : dictInsert k v l = l ++ [(k, v)] := by
  induction l with
  | nil => rfl
  | cons p rest ih =>
    simp only [dictKeys_cons, List.mem_cons, not_or] at h
    have hp : ¬ p.1 = k := fun hp => h.1 hp.symm
    simp only [dictInsert, if_neg hp, List.cons_append, ih h.2]

@[simp] theorem dictKeys_dictModify {α : Type} (k : String) (f : α → α)
    (l : List (String × α)) : dictKeys (dictModify k f l) = dictKeys l := by
  induction l with
  | nil => rfl
  | cons p rest ih =>
    by_cases hp : p.1 = k
    · simp [dictModify, hp]
    · simp [dictModify, hp, ih]

theorem dictLookup_dictModify_self {α : Type} (k : String) (f : α → α)
    (l : List (String × α)) :
    dictLookup k (dictModify k f l) = (dictLookup k l).map f := by
  induction l with
  | nil => rfl
  | cons p rest ih =>
    by_cases hp : p.1 = k
    · simp [dictModify, dictLookup, hp]
    · simp [dictModify, dictLookup, hp, ih]

theorem dictLookup_dictModify_ne {α : Type} {k k2 : String} (hne : k ≠ k2) (f : α → α)
    (l : List (String × α)) :
    dictLookup k (dictModify k2 f l) = dictLookup k l := by
  induction l with
  | nil => rfl
  | cons p rest ih =>
    by_cases hp : p.1 = k2
    · simp [dictModify, dictLookup, hp, Ne.symm hne]
    · by_cases hk : p.1 = k
      · simp [dictModify, dictLookup, hp, hk, hne]
      · simp [dictModify, dictLookup, hp, hk, ih]

theorem dictLookup_dictInsert_self {α : Type} (k : String) (v : α)
    (l : List (String × α)) : dictLookup k (dictInsert k v l) = some v := by
  induction l with
  | nil => simp [dictInsert, dictLookup]
  | cons p rest ih =>
    by_cases hp : p.1 = k
    · simp [dictInsert, dictLookup, hp]
    · simp [dictInsert, dictLookup, hp, ih]

theorem dictLookup_dictInsert_ne {α : Type} {k k2 : String} (hne : k ≠ k2) (v : α)
    (l : List (String × α)) :
    dictLookup k (dictInsert k2 v l) = dictLookup k l := by
  induction l with
  | nil => simp [dictInsert, dictLookup, Ne.symm hne]
  | cons p rest ih =>
    by_cases hp : p.1 = k2
    · simp [dictInsert, dictLookup, hp, Ne.symm hne]
    · by_cases hk : p.1 = k
      · simp [dictInsert, dictLookup, hp, hk, hne]
      · simp [dictInsert, dictLookup, hp, hk, ih]

theorem mem_dictKeys_of_dictLookup {α : Type} {k : String} {v : α}
    {l : List (String × α)} (h : dictLookup k l = some v) : k ∈ dictKeys l := by
  induction l with
  | nil => simp [dictLookup] at h
  | cons p rest ih =>
    by_cases hp : p.1 = k
    · simp [hp]
    · simp only [dictLookup, if_neg hp] at h
      simp [ih h]

theorem mem_of_dictLookup {α : Type} {k : String} {v : α}
    {l : List (String × α)} (h : dictLookup k l = some v) : (k, v) ∈ l := by
  induction l with
  | nil => simp [dictLookup] at h
  | cons p rest ih =>
    by_cases hp : p.1 = k
    · simp only [dictLookup, if_pos hp, Option.some.injEq] at h
      exact List.mem_cons.2 (Or.inl (by rw [← hp, ← h]))
    · simp only [dictLookup, if_neg hp] at h
      exact List.mem_cons.2 (Or.inr (ih h))

/-! ## Signal directions and JSON-like report values -/

/-- The closed set of signal direction strings the indicator adapters produce
("bullish" / "bearish" / "neutral"). -/
inductive SignalDirection : Type where
  | bullish : SignalDirection
  | bearish : SignalDirection
  | neutral : SignalDirection
deriving DecidableEq

/-- The string form of a direction, as it appears in the Python dicts. -/
def dirString : SignalDirection → String
  | .bullish => "bullish"
  | .bearish => "bearish"
  | .neutral => "neutral"

/-- The numeric sign of a direction used by the fusion arithmetic:
bullish ↦ +1, bearish ↦ -1, neutral ↦ 0. -/
def SignalDirection.sign : SignalDirection → ℚ
  | .bullish => 1
  | .bearish => -1
  | .neutral => 0

/-- JSON-like values, modelling the Python dicts/lists/numbers/strings the
strategies assemble into their analysis records. -/
inductive JValue : Type where
  | str : String → JValue
  | int : ℤ → JValue
  | rat : ℚ → JValue
  | arr : List JValue → JValue
  | obj : List (String × JValue) → JValue

/-- Field lookup on a JSON object (none on non-objects). -/
def JValue.getField : JValue → String → Option JValue
  | .obj fs, k => dictLookup k fs
  | _, _ => none

/-- The ordered key list of a JSON object (empty on non-objects). -/
def JValue.fieldKeys : JValue → List String
  | .obj fs => dictKeys fs
  | _ => []

/-- A `signal, confidence, metrics` triple as produced by one indicator
adapter (`calculate_*_signals`) for one ticker/interval series.  Confidence
is an exact rational standing for the Python float in `[0,1]`. -/
structure SignalTriple : Type where
  signal : SignalDirection
  confidence : ℚ
  metrics : JValue

/-- The adapter contract from the spec: a direction plus a confidence in
`[0,1]`. -/
def validTriple (t : SignalTriple) : Prop := 0 ≤ t.confidence ∧ t.confidence ≤ 1

/-! ## Python rounding

Python's builtin `round` on a float with no `ndigits` returns the nearest
integer, breaking ties to the even integer.  The strategies only round
values of the form `confidence * 100`; over exact rationals this is
round-half-to-even. -/

/-- Python `round(q)` on an exact rational: nearest integer, ties to even.
(`Rat.floor` is used rather than `Int.floor` so that the definition
evaluates by kernel reduction.) -/
def pyRound (q : ℚ) : ℤ :=
  if q - (q.floor : ℚ) < 1/2 then q.floor
  else if 1/2 < q - (q.floor : ℚ) then q.floor + 1
  else if q.floor % 2 = 0 then q.floor else q.floor + 1

theorem ratFloor_intFloor (q : ℚ) : q.floor = ⌊q⌋ :=
  (Rat.floor_def' q).trans Rat.floor_def.symm

theorem pyRound_nonneg {q : ℚ} (h : 0 ≤ q) : 0 ≤ pyRound q := by
  have hn : (0 : ℤ) ≤ ⌊q⌋ := Int.floor_nonneg.2 h
  unfold pyRound
  rw [ratFloor_intFloor]
  split_ifs <;> omega

theorem pyRound_le_of_le {q : ℚ} {B : ℤ} (h : q ≤ (B : ℚ)) : pyRound q ≤ B := by
  have hfl : ⌊q⌋ ≤ B := le_of_le_of_eq (Int.floor_le_floor h) (Int.floor_intCast B)
  have hstrict : ¬ (q - (⌊q⌋ : ℚ) < 1/2) → ⌊q⌋ < B := by
    intro h1
    have hlt : (⌊q⌋ : ℚ) < q := by
      have h2 : (1:ℚ)/2 ≤ q - (⌊q⌋ : ℚ) := le_of_not_lt h1
      linarith
    exact_mod_cast lt_of_lt_of_le hlt h
  unfold pyRound
  rw [ratFloor_intFloor]
  split_ifs with h1 h2 h3
  · exact hfl
  · have := hstrict h1
    omega
  · exact hfl
  · have := hstrict h1
    omega

/-! ## The Signal Fusion Engine

Modelled from the spec: the repository imports `weighted_signal_combination`
from its `indicators` module, whose source is not among the visible files.
Spec section 4.1 fixes its algorithm: for each label present in the
`LabeledSignalSet`, take the profile weight `w` (zero or missing weight
contributes nothing), the signed contribution `w * confidence *
sign(direction)`; sum the contributions, sum the used weights into `W`;
if `W = 0` raise `ConfigurationError`; otherwise `S = total / W`, the
direction is bullish when `S > 0`, bearish when `S < 0`, neutral at exactly
`0`, and the confidence is `|S|` clamped into `[0,1]`. -/

/-- A labeled signal set: label ↦ triple, for one (ticker, interval) pair. -/
abbrev LabeledSignalSet : Type := List (String × SignalTriple)

/-- A weighting profile: label ↦ weight. -/
abbrev WeightingProfile : Type := List (String × ℚ)

/-- Modelled from the spec: fusion failure when the usable weight is zero. -/
inductive FusionError : Type where
  | configurationError : FusionError
deriving DecidableEq

/-- The fused output for one (ticker, interval) pair. -/
structure ConsensusResult : Type where
  signal : SignalDirection
  confidence : ℚ
deriving DecidableEq

/-- The normalization denominator `W`: the sum, over the labels present in
the set, of their profile weights (a missing label counts as weight 0). -/
def usedWeight (signals : LabeledSignalSet) (weights : WeightingProfile) : ℚ :=
  (signals.map (fun p => ((dictLookup p.1 weights).getD 0))).sum

/-- The signed weighted total `Σ w * confidence * sign(direction)`. -/
def weightedTotal (signals : LabeledSignalSet) (weights : WeightingProfile) : ℚ :=
  (signals.map (fun p =>
    ((dictLookup p.1 weights).getD 0) * p.2.confidence * p.2.signal.sign)).sum

/-- The normalized score `S = total / W`. -/
def fusionScore (signals : LabeledSignalSet) (weights : WeightingProfile) : ℚ :=
  weightedTotal signals weights / usedWeight signals weights

/-- The direction decided from the score: zero threshold, exact ties to
neutral. -/
def decideDirection (S : ℚ) : SignalDirection :=
  if 0 < S then .bullish else if S < 0 then .bearish else .neutral

/-- Modelled from the spec: the Signal Fusion Engine
(`indicators.weighted_signal_combination`, not among the visible files).
Combines a labeled signal set under a weighting profile into one consensus
result, raising `ConfigurationError` when the usable weight `W` is zero. -/
def weighted_signal_combination (signals : LabeledSignalSet)
    (weights : WeightingProfile) : Except FusionError ConsensusResult :=
  if usedWeight signals weights = 0 then
    .error .configurationError
  else
    .ok { signal := decideDirection (fusionScore signals weights),
          confidence := min |fusionScore signals weights| 1 }

/-! ## The orchestration state and external collaborators

`EMAStrategy.__call__` and `RSIStrategy.__call__` read
`state["data"]["tickers"]`, `state["data"]["intervals"]`, the per-pair time
series stored under `f"{ticker}_{interval.value}"`, and
`state["metadata"]["show_reasoning"]`; they call the indicator functions
imported from the `indicators` module.  The indicator calculation functions
are external collaborators here: they are modelled as arbitrary total
functions bundled in `Indicators`.  (`calculate_stat_arb_signals` is
imported by both files but never called.)  `show_agent_reasoning` only
prints and is omitted from the pure embedding. -/

/-- An opaque time series (the content is never inspected by the
strategies, only passed to the indicator adapters). -/
structure DataFrame : Type where
  rows : List (List ℚ)
deriving DecidableEq

/-- `pd.DataFrame()`: the empty default series. -/
def DataFrame.empty : DataFrame := ⟨[]⟩

/-- The indicator adapters (external collaborators from the `indicators`
module), each a pure function of the series. -/
structure Indicators : Type where
  calculate_trend_signals : DataFrame → SignalTriple
  calculate_momentum_signals : DataFrame → SignalTriple
  calculate_mean_reversion_signals : DataFrame → SignalTriple
  calculate_volatility_signals : DataFrame → SignalTriple
  normalize_pandas : JValue → JValue

/-- An interval enum member (source name `Interval`, renamed to avoid a
Mathlib clash); `value` is its string label (e.g. "1d"). -/
structure TimeInterval : Type where
  value : String
deriving DecidableEq

/-- A `HumanMessage(content=..., name=...)`. -/
structure Message : Type where
  content : String
  name : String
deriving DecidableEq

/-- A per-strategy analysis report: ticker ↦ interval label ↦ record. -/
abbrev Analysis : Type := List (String × List (String × JValue))

/-- The `state["data"]` dict: its fixed fields, the `analyst_signals`
sub-dict, and the per-pair series keyed by `f"{ticker}_{interval.value}"`. -/
structure AgentData : Type where
  name : String
  tickers : List String
  intervals : List TimeInterval
  analyst_signals : List (String × Analysis)
  series : List (String × DataFrame)

/-- The `state["metadata"]` dict. -/
structure Metadata : Type where
  show_reasoning : Bool

/-- The shared orchestration state. -/
structure AgentState : Type where
  data : AgentData
  metadata : Metadata

/-- The dict a strategy `__call__` returns:
`{"messages": [message], "data": data}`. -/
structure CallResult : Type where
  messages : List Message
  data : AgentData

/-- Serialization of `json.dumps` over the JSON model (Python separators). -/
def jsonDumps : JValue → String
  | .str s => "\"" ++ s ++ "\""
  | .int n => toString n
  | .rat q => toString q
  | .arr items => "[" ++ String.intercalate ", " (items.attach.map (fun x => jsonDumps x.1)) ++ "]"
  | .obj fields => "\x7b" ++
      String.intercalate ", "
        (fields.attach.map (fun p => "\"" ++ p.1.1 ++ "\": " ++ jsonDumps p.1.2)) ++ "\x7d"
decreasing_by
  · rcases x with ⟨v, hmem⟩
    simp_wf
    have := List.sizeOf_lt_of_mem hmem
    omega
  · rcases p with ⟨⟨a, b⟩, hmem⟩
    simp_wf
    have := List.sizeOf_lt_of_mem hmem
    simp at this
    omega

/-- A whole analysis report as a JSON value (ticker ↦ interval ↦ record). -/
def analysisJ (a : Analysis) : JValue :=
  JValue.obj (a.map (fun p => (p.1, JValue.obj p.2)))

/-- `data.get(f"{ticker}_{interval.value}", pd.DataFrame())`. -/
def getSeries (d : AgentData) (ticker : String) (interval : TimeInterval) : DataFrame :=
  (dictLookup (ticker ++ "_" ++ interval.value) d.series).getD DataFrame.empty

/-- The value of an `Except`, with a default for the error case (the two
strategies only apply it where the error is proved impossible:
`ema_fusion_ok` / `rsi_fusion_ok`). -/
def exceptValue {ε α : Type} : Except ε α → α → α
  | .ok a, _ => a
  | .error _, d => d

/-- The per-label `{signal, confidence, metrics}` entry of
`strategy_signals` (confidence rounded to an integer percentage). -/
def labelDetail (np : JValue → JValue) (t : SignalTriple) : JValue :=
  .obj [("signal", .str (dirString t.signal)),
        ("confidence", .int (pyRound (t.confidence * 100))),
        ("metrics", np t.metrics)]

/-! ## EMAStrategy (src/strategies/ema_strategy.py) -/

/-- `strategy_weights` of `EMAStrategy.__call__`. -/
def ema_strategy_weights : WeightingProfile :=
  [("ema_crossovers", 45/100),
   ("ema_slope", 30/100),
   ("price_to_ema", 15/100),
   ("multi_timeframe", 5/100),
   ("ema_volatility", 5/100)]

/-- `ema_periods` of `EMAStrategy.__call__`. -/
def ema_periods : JValue :=
  .obj [("short", .arr [.int 3, .int 5, .int 8]),
        ("medium", .arr [.int 13, .int 21, .int 34]),
        ("long", .arr [.int 55, .int 89, .int 144])]

/-- The labeled signal set `EMAStrategy.__call__` passes to
`weighted_signal_combination` (trend backs both "ema_crossovers" and
"multi_timeframe"). -/
def emaSignalSet (trend_signals momentum_signals mean_reversion_signals
    volatility_signals : SignalTriple) : LabeledSignalSet :=
  [("ema_crossovers", trend_signals),
   ("ema_slope", momentum_signals),
   ("price_to_ema", mean_reversion_signals),
   ("multi_timeframe", trend_signals),
   ("ema_volatility", volatility_signals)]

/-- The `combined_signal` of `EMAStrategy.__call__` (the fusion call; the
error branch is unreachable, see `ema_fusion_ok`). -/
def emaCombined (ts ms mr vs : SignalTriple) : ConsensusResult :=
  exceptValue (weighted_signal_combination (emaSignalSet ts ms mr vs) ema_strategy_weights)
    { signal := .neutral, confidence := 0 }

/-- The analysis record `EMAStrategy.__call__` builds for one
(ticker, interval) pair from its series. -/
def emaRecord (ind : Indicators) (df : DataFrame) : JValue :=
  let trend_signals := ind.calculate_trend_signals df
  let momentum_signals := ind.calculate_momentum_signals df
  let mean_reversion_signals := ind.calculate_mean_reversion_signals df
  let volatility_signals := ind.calculate_volatility_signals df
  let combined_signal := emaCombined trend_signals momentum_signals
    mean_reversion_signals volatility_signals
  .obj [
    ("signal", .str (dirString combined_signal.signal)),
    ("confidence", .int (pyRound (combined_signal.confidence * 100))),
    ("ema_periods", ema_periods),
    ("strategy_signals", .obj [
      ("ema_crossovers", labelDetail ind.normalize_pandas trend_signals),
      ("ema_slope", labelDetail ind.normalize_pandas momentum_signals),
      ("price_to_ema", labelDetail ind.normalize_pandas mean_reversion_signals),
      ("multi_timeframe", labelDetail ind.normalize_pandas trend_signals),
      ("ema_volatility", labelDetail ind.normalize_pandas volatility_signals)])]

/-- The two nested loops shared by both strategy bodies: initialise
`analysis[ticker] = {}` for every ticker, then set
`analysis[ticker][interval.value]` to the pair's record. -/
def buildAnalysis (rec : String → TimeInterval → JValue) (tickers : List String)
    (intervals : List TimeInterval) : Analysis :=
  let init : Analysis := tickers.foldl (fun acc ticker => dictInsert ticker [] acc) []
  tickers.foldl (fun acc ticker =>
    intervals.foldl (fun acc2 interval =>
      dictModify ticker (dictInsert interval.value (rec ticker interval)) acc2) acc) init

/-- The `ema_analysis` report of `EMAStrategy.__call__`. -/
def ema_analysis (ind : Indicators) (d : AgentData) : Analysis :=
  buildAnalysis (fun ticker interval => emaRecord ind (getSeries d ticker interval))
    d.tickers d.intervals

/-- `EMAStrategy.__call__`: returns the updated shared state (the Python
code mutates `state["data"]` in place) together with the returned dict. -/
def emaCall (ind : Indicators) (state : AgentState) : AgentState × CallResult :=
  let data1 : AgentData := { state.data with name := "EMAStrategy" }
  let analysis := ema_analysis ind data1
  let message : Message :=
    { content := jsonDumps (analysisJ analysis), name := "technical_analyst_agent" }
  let data2 : AgentData :=
    { data1 with analyst_signals :=
        dictInsert "technical_analyst_agent" analysis data1.analyst_signals }
  ({ state with data := data2 }, { messages := [message], data := data2 })

/-! ## RSIStrategy (src/strategies/rsi_strategy.py) -/

/-- `strategy_weights` of `RSIStrategy.__call__`. -/
def rsi_strategy_weights : WeightingProfile :=
  [("rsi_overbought_oversold", 5/100),
   ("rsi_divergence", 5/100),
   ("rsi_trend_strength", 5/100),
   ("rsi_volatility", 5/100),
   ("momentum", 80/100)]

/-- The labeled signal set `RSIStrategy.__call__` passes to
`weighted_signal_combination` (momentum backs both "rsi_trend_strength"
and "momentum"). -/
def rsiSignalSet (trend_signals momentum_signals mean_reversion_signals
    volatility_signals : SignalTriple) : LabeledSignalSet :=
  [("rsi_overbought_oversold", mean_reversion_signals),
   ("rsi_divergence", trend_signals),
   ("rsi_trend_strength", momentum_signals),
   ("rsi_volatility", volatility_signals),
   ("momentum", momentum_signals)]

/-- The `combined_signal` of `RSIStrategy.__call__`. -/
def rsiCombined (ts ms mr vs : SignalTriple) : ConsensusResult :=
  exceptValue (weighted_signal_combination (rsiSignalSet ts ms mr vs) rsi_strategy_weights)
    { signal := .neutral, confidence := 0 }

/-- The analysis record `RSIStrategy.__call__` builds for one
(ticker, interval) pair from its series. -/
def rsiRecord (ind : Indicators) (df : DataFrame) : JValue :=
  let trend_signals := ind.calculate_trend_signals df
  let momentum_signals := ind.calculate_momentum_signals df
  let mean_reversion_signals := ind.calculate_mean_reversion_signals df
  let volatility_signals := ind.calculate_volatility_signals df
  let combined_signal := rsiCombined trend_signals momentum_signals
    mean_reversion_signals volatility_signals
  .obj [
    ("signal", .str (dirString combined_signal.signal)),
    ("confidence", .int (pyRound (combined_signal.confidence * 100))),
    ("strategy_signals", .obj [
      ("rsi_overbought_oversold", labelDetail ind.normalize_pandas mean_reversion_signals),
      ("rsi_divergence", labelDetail ind.normalize_pandas trend_signals),
      ("rsi_trend_strength", labelDetail ind.normalize_pandas momentum_signals),
      ("rsi_volatility", labelDetail ind.normalize_pandas volatility_signals),
      ("momentum", labelDetail ind.normalize_pandas momentum_signals)])]

/-- The `rsi_analysis` report of `RSIStrategy.__call__`. -/
def rsi_analysis (ind : Indicators) (d : AgentData) : Analysis :=
  buildAnalysis (fun ticker interval => rsiRecord ind (getSeries d ticker interval))
    d.tickers d.intervals

/-- `RSIStrategy.__call__`. -/
def rsiCall (ind : Indicators) (state : AgentState) : AgentState × CallResult :=
  let data1 : AgentData := { state.data with name := "RSIStrategy" }
  let analysis := rsi_analysis ind data1
  let message : Message :=
    { content := jsonDumps (analysisJ analysis), name := "technical_analyst_agent" }
  let data2 : AgentData :=
    { data1 with analyst_signals :=
        dictInsert "technical_analyst_agent" analysis data1.analyst_signals }
  ({ state with data := data2 }, { messages := [message], data := data2 })

/-! ## The fusion call inside the strategies never errors

Both strategies pass five-label sets whose profile weights sum to 1, so the
`W = 0` configuration failure is unreachable inside them. -/

theorem ema_usedWeight (ts ms mr vs : SignalTriple) :
    usedWeight (emaSignalSet ts ms mr vs) ema_strategy_weights = 1 := by
  simp [usedWeight, emaSignalSet, ema_strategy_weights, dictLookup]
  norm_num

theorem rsi_usedWeight (ts ms mr vs : SignalTriple) :
    usedWeight (rsiSignalSet ts ms mr vs) rsi_strategy_weights = 1 := by
  simp [usedWeight, rsiSignalSet, rsi_strategy_weights, dictLookup]
  norm_num

theorem ema_fusion_ok (ts ms mr vs : SignalTriple) :
    weighted_signal_combination (emaSignalSet ts ms mr vs) ema_strategy_weights =
      .ok (emaCombined ts ms mr vs) := by
  simp [weighted_signal_combination, emaCombined, exceptValue, ema_usedWeight]

theorem rsi_fusion_ok (ts ms mr vs : SignalTriple) :
    weighted_signal_combination (rsiSignalSet ts ms mr vs) rsi_strategy_weights =
      .ok (rsiCombined ts ms mr vs) := by
  simp [weighted_signal_combination, rsiCombined, exceptValue, rsi_usedWeight]

/-! ## The shape of a built report -/

theorem foldl_init_fresh (ts : List String) :
    ∀ acc : Analysis, (∀ t ∈ ts, t ∉ dictKeys acc) → ts.Nodup →
      ts.foldl (fun acc ticker => dictInsert ticker [] acc) acc =
        acc ++ ts.map (fun t => (t, [])) := by
  induction ts with
  | nil => intro acc _ _; simp
  | cons t rest ih =>
    intro acc hfresh hnd
    simp only [List.foldl_cons, List.map_cons]
    rw [dictInsert_of_not_mem _ (hfresh t (List.mem_cons_self t rest))]
    rw [ih (acc ++ [(t, [])]) ?fresh ((List.nodup_cons.1 hnd).2)]
    · simp
    case fresh =>
      intro q hq
      have hq1 : q ∉ dictKeys acc := hfresh q (List.mem_cons_of_mem t hq)
      have hq2 : q ≠ t := by
        intro h
        exact (List.nodup_cons.1 hnd).1 (h ▸ hq)
      simp [List.mem_append, hq1, hq2]

theorem foldl_interval_insert (rec : TimeInterval → JValue) (l : List TimeInterval) :
    ∀ acc : List (String × JValue),
      (∀ i ∈ l, i.value ∉ dictKeys acc) → (l.map TimeInterval.value).Nodup →
      l.foldl (fun m i => dictInsert i.value (rec i) m) acc =
        acc ++ l.map (fun i => (i.value, rec i)) := by
  induction l with
  | nil => intro acc _ _; simp
  | cons i rest ih =>
    intro acc hfresh hnd
    simp only [List.map_cons] at hnd
    simp only [List.foldl_cons, List.map_cons]
    rw [dictInsert_of_not_mem _ (hfresh i (List.mem_cons_self i rest))]
    rw [ih (acc ++ [(i.value, rec i)]) ?fresh ((List.nodup_cons.1 hnd).2)]
    · simp
    case fresh =>
      intro j hj
      have hj1 : j.value ∉ dictKeys acc := hfresh j (List.mem_cons_of_mem i hj)
      have hj2 : j.value ≠ i.value := by
        intro h
        exact (List.nodup_cons.1 hnd).1 (h ▸ List.mem_map_of_mem TimeInterval.value hj)
      simp [List.mem_append, hj1, hj2]

theorem dictLookup_map_const {α : Type} (v : α) (ts : List String) (t : String)
    (h : t ∈ ts) : dictLookup t (ts.map (fun s => (s, v))) = some v := by
  induction ts with
  | nil => cases h
  | cons s rest ih =>
    rcases List.mem_cons.1 h with h1 | h1
    · simp [dictLookup, h1]
    · by_cases hs : s = t
      · simp [dictLookup, hs]
      · simp only [List.map_cons, dictLookup, if_neg hs]
        exact ih h1

theorem dictLookup_interval_map (rec : TimeInterval → JValue) (l : List TimeInterval)
    (hI : (l.map TimeInterval.value).Nodup) (i : TimeInterval) (hi : i ∈ l) :
    dictLookup i.value (l.map (fun j => (j.value, rec j))) = some (rec i) := by
  induction l with
  | nil => cases hi
  | cons j rest ih =>
    simp only [List.map_cons] at hI
    rcases List.mem_cons.1 hi with h1 | h1
    · simp [dictLookup, h1]
    · by_cases hv : j.value = i.value
      · exfalso
        exact (List.nodup_cons.1 hI).1 (hv ▸ List.mem_map_of_mem TimeInterval.value h1)
      · simp only [List.map_cons, dictLookup, if_neg hv]
        exact ih (List.nodup_cons.1 hI).2 h1

theorem dictKeys_foldl_modify {β : Type} (g : β → List (String × JValue) → List (String × JValue))
    (l : List β) (t : String) (acc : Analysis) :
    dictKeys (l.foldl (fun a b => dictModify t (g b) a) acc) = dictKeys acc := by
  induction l generalizing acc with
  | nil => rfl
  | cons b rest ih =>
    simp only [List.foldl_cons]
    rw [ih, dictKeys_dictModify]

theorem dictLookup_foldl_modify_ne {β : Type}
    (g : β → List (String × JValue) → List (String × JValue)) (l : List β)
    {t t2 : String} (h : t ≠ t2) (acc : Analysis) :
    dictLookup t (l.foldl (fun a b => dictModify t2 (g b) a) acc) = dictLookup t acc := by
  induction l generalizing acc with
  | nil => rfl
  | cons b rest ih =>
    simp only [List.foldl_cons]
    rw [ih, dictLookup_dictModify_ne h]

theorem dictLookup_foldl_modify_self {β : Type}
    (g : β → List (String × JValue) → List (String × JValue)) (l : List β)
    (t : String) (acc : Analysis) :
    dictLookup t (l.foldl (fun a b => dictModify t (g b) a) acc) =
      (dictLookup t acc).map (fun m => l.foldl (fun m b => g b m) m) := by
  induction l generalizing acc with
  | nil => cases h : dictLookup t acc <;> simp [h]
  | cons b rest ih =>
    simp only [List.foldl_cons]
    rw [ih, dictLookup_dictModify_self]
    cases h : dictLookup t acc <;> simp [h]

/-- Helper naming the inner loop of `buildAnalysis` for one ticker. -/
def innerLoop (rec : String → TimeInterval → JValue) (intervals : List TimeInterval)
    (t : String) (m : List (String × JValue)) : List (String × JValue) :=
  intervals.foldl (fun m interval => dictInsert interval.value (rec t interval) m) m

theorem outerFold_lookup_ne (rec : String → TimeInterval → JValue)
    (intervals : List TimeInterval) (ts : List String) {t : String} (h : t ∉ ts)
    (acc : Analysis) :
    dictLookup t (ts.foldl (fun acc ticker =>
        intervals.foldl (fun acc2 interval =>
          dictModify ticker (dictInsert interval.value (rec ticker interval)) acc2) acc) acc) =
      dictLookup t acc := by
  induction ts generalizing acc with
  | nil => rfl
  | cons t0 rest ih =>
    have h0 : t ≠ t0 := fun he => h (he ▸ List.mem_cons_self t0 rest)
    have hrest : t ∉ rest := fun he => h (List.mem_cons_of_mem t0 he)
    simp only [List.foldl_cons]
    rw [ih hrest]
    exact dictLookup_foldl_modify_ne
      (fun interval => dictInsert interval.value (rec t0 interval)) intervals h0 acc

theorem outerFold_lookup_self (rec : String → TimeInterval → JValue)
    (intervals : List TimeInterval) (ts : List String) {t : String}
    (hnd : ts.Nodup) (h : t ∈ ts) (acc : Analysis) :
    dictLookup t (ts.foldl (fun acc ticker =>
        intervals.foldl (fun acc2 interval =>
          dictModify ticker (dictInsert interval.value (rec ticker interval)) acc2) acc) acc) =
      (dictLookup t acc).map (innerLoop rec intervals t) := by
  induction ts generalizing acc with
  | nil => cases h
  | cons t0 rest ih =>
    simp only [List.foldl_cons]
    rcases List.mem_cons.1 h with h1 | h1
    · subst h1
      have hrest : t ∉ rest := (List.nodup_cons.1 hnd).1
      rw [outerFold_lookup_ne rec intervals rest hrest]
      rw [dictLookup_foldl_modify_self
        (fun interval => dictInsert interval.value (rec t interval)) intervals t acc]
      rfl
    · have h0 : t ≠ t0 := by
        intro he
        exact (List.nodup_cons.1 hnd).1 (he ▸ h1)
      rw [ih (List.nodup_cons.1 hnd).2 h1]
      rw [dictLookup_foldl_modify_ne
        (fun interval => dictInsert interval.value (rec t0 interval)) intervals h0 acc]

theorem outerFold_keys (rec : String → TimeInterval → JValue)
    (intervals : List TimeInterval) (ts : List String) (acc : Analysis) :
    dictKeys (ts.foldl (fun acc ticker =>
        intervals.foldl (fun acc2 interval =>
          dictModify ticker (dictInsert interval.value (rec ticker interval)) acc2) acc) acc) =
      dictKeys acc := by
  induction ts generalizing acc with
  | nil => rfl
  | cons t0 rest ih =>
    simp only [List.foldl_cons]
    rw [ih]
    exact dictKeys_foldl_modify
      (fun interval => dictInsert interval.value (rec t0 interval)) intervals t0 acc

/-- The outer keys of a built report are exactly the requested tickers. -/
theorem buildAnalysis_keys (rec : String → TimeInterval → JValue)
    (tickers : List String) (intervals : List TimeInterval) (hT : tickers.Nodup) :
    dictKeys (buildAnalysis rec tickers intervals) = tickers := by
  unfold buildAnalysis
  rw [outerFold_keys]
  rw [foldl_init_fresh tickers [] (by simp) hT]
  simp [dictKeys, Function.comp_def]

/-- The record dict a built report holds for a requested ticker. -/
theorem buildAnalysis_lookup (rec : String → TimeInterval → JValue)
    (tickers : List String) (intervals : List TimeInterval) (hT : tickers.Nodup)
    {t : String} (ht : t ∈ tickers) :
    dictLookup t (buildAnalysis rec tickers intervals) =
      some (innerLoop rec intervals t []) := by
  unfold buildAnalysis
  rw [outerFold_lookup_self rec intervals tickers hT ht]
  rw [foldl_init_fresh tickers [] (by simp) hT]
  simp only [List.nil_append]
  rw [dictLookup_map_const [] tickers t ht]
  rfl

/-- Under distinct interval labels the inner loop is the label ↦ record map. -/
theorem innerLoop_eq_map (rec : String → TimeInterval → JValue)
    (intervals : List TimeInterval) (hI : (intervals.map TimeInterval.value).Nodup)
    (t : String) :
    innerLoop rec intervals t [] =
      intervals.map (fun i => (i.value, rec t i)) := by
  unfold innerLoop
  rw [foldl_interval_insert (fun i => rec t i) intervals [] (by simp) hI]
  simp

/-! ## Concrete fixtures used by witnesses and counterexamples -/

/-- A constant signal triple with empty metrics. -/
def constTriple (dir : SignalDirection) (c : ℚ) : SignalTriple :=
  { signal := dir, confidence := c, metrics := .obj [] }

/-- Indicator adapters that return a fixed triple on every series. -/
def constIndicators (dir : SignalDirection) (c : ℚ) : Indicators :=
  { calculate_trend_signals := fun _ => constTriple dir c
    calculate_momentum_signals := fun _ => constTriple dir c
    calculate_mean_reversion_signals := fun _ => constTriple dir c
    calculate_volatility_signals := fun _ => constTriple dir c
    normalize_pandas := id }

/-- A small shared state: two tickers, one interval, no stored series, no
prior analyst signals. -/
def testState : AgentState :=
  { data := { name := ""
              tickers := ["AAA", "BBB"]
              intervals := [{ value := "1d" }]
              analyst_signals := []
              series := [] }
    metadata := { show_reasoning := false } }

/-! ## Claim C7: zero usable weight raises ConfigurationError -/

/-- Claim C7: for every non-empty LabeledSignalSet, whenever the total
usable weight `W` (the sum of the profile weights of the labels present in
the set) is zero — all-zero profiles and profile/set label mismatches
alike — the fusion engine returns ConfigurationError and no partial
result. -/
theorem fusion_zero_weight_error (s : LabeledSignalSet) (w : WeightingProfile)
    (hne : s ≠ []) (hW : usedWeight s w = 0) :
    weighted_signal_combination s w = .error .configurationError := by
  simp [weighted_signal_combination, hW]

/-- Witness for C7: a set whose only label is absent from a profile
carrying a positive weight — a profile/set mismatch with `W = 0`. -/
theorem fusion_zero_weight_error_witness :
    weighted_signal_combination [("b", constTriple .bullish 1)] [("a", 1)] =
      .error .configurationError :=
  fusion_zero_weight_error [("b", constTriple .bullish 1)] [("a", 1)]
    (by simp) (by simp [usedWeight, dictLookup])

/-! ## Claim C8: fusion is deterministic and iteration-order independent -/

/-- Claim C8: for a fixed LabeledSignalSet and WeightingProfile the fusion
engine returns the same ConsensusResult on any two runs, and reordering the
labels of the set leaves the result unchanged (the summation is a true,
order-independent sum). -/
theorem fusion_deterministic (s1 s2 : LabeledSignalSet) (w : WeightingProfile)
    (h : List.Perm s1 s2) :
    weighted_signal_combination s1 w = weighted_signal_combination s2 w := by
  have hW : usedWeight s1 w = usedWeight s2 w :=
    List.Perm.sum_eq (List.Perm.map _ h)
  have hT : weightedTotal s1 w = weightedTotal s2 w :=
    List.Perm.sum_eq (List.Perm.map _ h)
  simp [weighted_signal_combination, fusionScore, hW, hT]

/-- Witness for C8: swapping two labeled signals leaves the result equal. -/
theorem fusion_deterministic_witness :
    weighted_signal_combination
        [("a", constTriple .bullish 1), ("b", constTriple .bearish (1/2))]
        [("a", 3/4), ("b", 1/4)] =
      weighted_signal_combination
        [("b", constTriple .bearish (1/2)), ("a", constTriple .bullish 1)]
        [("a", 3/4), ("b", 1/4)] :=
  fusion_deterministic _ _ _
    (List.Perm.swap ("b", constTriple .bearish (1/2)) ("a", constTriple .bullish 1) [])

/-! ## Claim C9: scaling all weights by a positive constant is invisible -/

/-- A profile with every weight multiplied by `c`. -/
def scaleWeights (c : ℚ) (w : WeightingProfile) : WeightingProfile :=
  w.map (fun p => (p.1, c * p.2))

theorem dictLookup_scaleWeights (c : ℚ) (w : WeightingProfile) (k : String) :
    dictLookup k (scaleWeights c w) = (dictLookup k w).map (fun x => c * x) := by
  induction w with
  | nil => rfl
  | cons p rest ih =>
    by_cases hp : p.1 = k
    · simp [scaleWeights, dictLookup, hp]
    · simp only [scaleWeights, List.map_cons, dictLookup, if_neg hp]
      exact ih

theorem sum_map_mul {α : Type} (l : List α) (f g : α → ℚ) (c : ℚ)
    (h : ∀ a ∈ l, f a = c * g a) : (l.map f).sum = c * (l.map g).sum := by
  induction l with
  | nil => simp
  | cons a rest ih =>
    simp only [List.map_cons, List.sum_cons]
    rw [h a (List.mem_cons_self a rest), ih (fun b hb => h b (List.mem_cons_of_mem a hb))]
    ring

theorem usedWeight_scale (s : LabeledSignalSet) (w : WeightingProfile) (c : ℚ) :
    usedWeight s (scaleWeights c w) = c * usedWeight s w := by
  unfold usedWeight
  apply sum_map_mul
  intro p hp
  rw [dictLookup_scaleWeights]
  cases dictLookup p.1 w <;> simp

theorem weightedTotal_scale (s : LabeledSignalSet) (w : WeightingProfile) (c : ℚ) :
    weightedTotal s (scaleWeights c w) = c * weightedTotal s w := by
  unfold weightedTotal
  apply sum_map_mul
  intro p hp
  rw [dictLookup_scaleWeights]
  cases dictLookup p.1 w with
  | none => simp
  | some x =>
    simp
    ring

/-- Claim C9: for every LabeledSignalSet, WeightingProfile and positive
constant `c`, fusing under the profile with all weights multiplied by `c`
yields the same ConsensusResult (same direction and confidence). -/
theorem fusion_scale_invariant (s : LabeledSignalSet) (w : WeightingProfile)
    (c : ℚ) (hc : 0 < c) :
    weighted_signal_combination s (scaleWeights c w) =
      weighted_signal_combination s w := by
  have hW := usedWeight_scale s w c
  have hT := weightedTotal_scale s w c
  by_cases hw : usedWeight s w = 0
  · simp [weighted_signal_combination, hW, hw]
  · have hcw : c * usedWeight s w ≠ 0 := mul_ne_zero (ne_of_gt hc) hw
    have hS : fusionScore s (scaleWeights c w) = fusionScore s w := by
      unfold fusionScore
      rw [hW, hT, mul_div_mul_left _ _ (ne_of_gt hc)]
    simp [weighted_signal_combination, hW, hw, hcw, hS]

/-- Witness for C9: doubling both weights leaves the result unchanged. -/
theorem fusion_scale_invariant_witness :
    weighted_signal_combination
        [("a", constTriple .bullish 1), ("b", constTriple .bearish (1/2))]
        (scaleWeights 2 [("a", 3/4), ("b", 1/4)]) =
      weighted_signal_combination
        [("a", constTriple .bullish 1), ("b", constTriple .bearish (1/2))]
        [("a", 3/4), ("b", 1/4)] :=
  fusion_scale_invariant _ [("a", 3/4), ("b", 1/4)] 2 (by norm_num)

/-! ## Claim C1: one record per requested (ticker, interval) pair -/

theorem dictKeys_interval_map (rec : TimeInterval → JValue) (l : List TimeInterval) :
    dictKeys (l.map (fun i => (i.value, rec i))) = l.map TimeInterval.value := by
  simp [dictKeys, List.map_map, Function.comp_def]

/-- Claim C1: for every input state carrying ticker list T and interval
list I (distinct tickers, distinct interval labels), the report either
strategy's `__call__` builds has outer keys exactly T and, per ticker,
inner keys exactly the labels of I — whatever the stored series, absent or
empty included. -/
theorem report_completeness (ind : Indicators) (d : AgentData)
    (hT : d.tickers.Nodup) (hI : (d.intervals.map TimeInterval.value).Nodup) :
    dictKeys (ema_analysis ind d) = d.tickers ∧
    dictKeys (rsi_analysis ind d) = d.tickers ∧
    (∀ t m, dictLookup t (ema_analysis ind d) = some m →
      dictKeys m = d.intervals.map TimeInterval.value) ∧
    (∀ t m, dictLookup t (rsi_analysis ind d) = some m →
      dictKeys m = d.intervals.map TimeInterval.value) := by
  refine ⟨buildAnalysis_keys _ _ _ hT, buildAnalysis_keys _ _ _ hT, ?_, ?_⟩
  · intro t m hm
    unfold ema_analysis at hm
    have ht : t ∈ d.tickers := by
      have hmem := mem_dictKeys_of_dictLookup hm
      rwa [buildAnalysis_keys _ _ _ hT] at hmem
    rw [buildAnalysis_lookup _ _ _ hT ht] at hm
    cases hm
    rw [innerLoop_eq_map _ _ hI, dictKeys_interval_map]
  · intro t m hm
    unfold rsi_analysis at hm
    have ht : t ∈ d.tickers := by
      have hmem := mem_dictKeys_of_dictLookup hm
      rwa [buildAnalysis_keys _ _ _ hT] at hmem
    rw [buildAnalysis_lookup _ _ _ hT ht] at hm
    cases hm
    rw [innerLoop_eq_map _ _ hI, dictKeys_interval_map]

/-- Witness for C1 at the concrete test state (which stores no series at
all, so every requested pair's series is absent). -/
theorem report_completeness_witness :
    dictKeys (ema_analysis (constIndicators .neutral 0) testState.data) =
      testState.data.tickers ∧
    dictKeys (rsi_analysis (constIndicators .neutral 0) testState.data) =
      testState.data.tickers ∧
    (∀ t m, dictLookup t (ema_analysis (constIndicators .neutral 0) testState.data) = some m →
      dictKeys m = testState.data.intervals.map TimeInterval.value) ∧
    (∀ t m, dictLookup t (rsi_analysis (constIndicators .neutral 0) testState.data) = some m →
      dictKeys m = testState.data.intervals.map TimeInterval.value) :=
  report_completeness (constIndicators .neutral 0) testState.data
    (by simp [testState]) (by simp [testState])

/-! ## Claim C6: absent series degrade to the empty DataFrame, never drop
a record -/

/-- Claim C6: for a requested (ticker, interval) pair whose series is
absent from the data, both strategies pass the well-defined empty series to
the adapters and the report still holds a record for that pair (namely the
record computed from the empty DataFrame). -/
theorem missing_series_graceful (ind : Indicators) (d : AgentData)
    (hT : d.tickers.Nodup) (hI : (d.intervals.map TimeInterval.value).Nodup)
    {t : String} {i : TimeInterval} (ht : t ∈ d.tickers) (hi : i ∈ d.intervals)
    (habs : dictLookup (t ++ "_" ++ i.value) d.series = none) :
    (∃ m, dictLookup t (ema_analysis ind d) = some m ∧
       dictLookup i.value m = some (emaRecord ind DataFrame.empty)) ∧
    (∃ m, dictLookup t (rsi_analysis ind d) = some m ∧
       dictLookup i.value m = some (rsiRecord ind DataFrame.empty)) := by
  have hser : getSeries d t i = DataFrame.empty := by
    simp [getSeries, habs]
  unfold ema_analysis rsi_analysis
  constructor
  · refine ⟨_, buildAnalysis_lookup _ _ _ hT ht, ?_⟩
    rw [innerLoop_eq_map _ _ hI, dictLookup_interval_map _ _ hI i hi, hser]
  · refine ⟨_, buildAnalysis_lookup _ _ _ hT ht, ?_⟩
    rw [innerLoop_eq_map _ _ hI, dictLookup_interval_map _ _ hI i hi, hser]

/-- Witness for C6: the test state stores no series, so the pair
("AAA", "1d") is absent, and both reports still carry its record. -/
theorem missing_series_graceful_witness :
    (∃ m, dictLookup "AAA" (ema_analysis (constIndicators .neutral 0) testState.data) = some m ∧
       dictLookup "1d" m =
         some (emaRecord (constIndicators .neutral 0) DataFrame.empty)) ∧
    (∃ m, dictLookup "AAA" (rsi_analysis (constIndicators .neutral 0) testState.data) = some m ∧
       dictLookup "1d" m =
         some (rsiRecord (constIndicators .neutral 0) DataFrame.empty)) :=
  missing_series_graceful (constIndicators .neutral 0) testState.data
    (by simp [testState]) (by simp [testState])
    (by simp [testState]) (by simp [testState]) rfl

/-! ## Claim C2: the strategies DO mutate the shared state

The source of both strategies sets `data['name']` and stores the report
into `state["data"]["analyst_signals"]["technical_analyst_agent"]`
(ema_strategy.py line 119, rsi_strategy.py line 112), so the no-mutation
claim fails; the counterexample runs EMAStrategy on a state with no prior
analyst signals. -/

/-- Counterexample to C2 as stated: running `EMAStrategy.__call__` on the
test state changes `state["data"]` — its `analyst_signals` dict gains a
"technical_analyst_agent" entry. -/
theorem no_mutation_counterexample :
    (emaCall (constIndicators .neutral 0) testState).1.data.analyst_signals ≠
      testState.data.analyst_signals := by
  intro h
  have hlen := congrArg List.length h
  simp [emaCall, testState, dictInsert] at hlen

/-- Amended claim C2: `__call__` does mutate the shared state, in exactly
two places: it sets `data["name"]` to the strategy class name, and it
stores the report under
`state["data"]["analyst_signals"]["technical_analyst_agent"]`; tickers,
intervals, series and the metadata are untouched, and the returned dict's
`data` is that same mutated data. -/
theorem call_mutates_state (ind : Indicators) (st : AgentState) :
    ((emaCall ind st).1.data.name = "EMAStrategy" ∧
     (emaCall ind st).1.data.analyst_signals =
       dictInsert "technical_analyst_agent"
         (ema_analysis ind { st.data with name := "EMAStrategy" })
         st.data.analyst_signals ∧
     (emaCall ind st).1.data.tickers = st.data.tickers ∧
     (emaCall ind st).1.data.intervals = st.data.intervals ∧
     (emaCall ind st).1.data.series = st.data.series ∧
     (emaCall ind st).1.metadata = st.metadata ∧
     (emaCall ind st).2.data = (emaCall ind st).1.data) ∧
    ((rsiCall ind st).1.data.name = "RSIStrategy" ∧
     (rsiCall ind st).1.data.analyst_signals =
       dictInsert "technical_analyst_agent"
         (rsi_analysis ind { st.data with name := "RSIStrategy" })
         st.data.analyst_signals ∧
     (rsiCall ind st).1.data.tickers = st.data.tickers ∧
     (rsiCall ind st).1.data.intervals = st.data.intervals ∧
     (rsiCall ind st).1.data.series = st.data.series ∧
     (rsiCall ind st).1.metadata = st.metadata ∧
     (rsiCall ind st).2.data = (rsiCall ind st).1.data) :=
  ⟨⟨rfl, rfl, rfl, rfl, rfl, rfl, rfl⟩, ⟨rfl, rfl, rfl, rfl, rfl, rfl, rfl⟩⟩

/-! ## Claim C10: both strategies write the same shared key -/

/-- Claim C10: both strategy variants store their report under
`state['data']['analyst_signals']['technical_analyst_agent']` and name
their message "technical_analyst_agent"; running both over the same state
makes the later run overwrite the earlier report at that key; and each
returned message's content is exactly the JSON serialization of the report
stored by that run. -/
theorem shared_key_overwrite (ind : Indicators) (st : AgentState) :
    ((emaCall ind st).2.messages.map Message.name = ["technical_analyst_agent"] ∧
     (rsiCall ind st).2.messages.map Message.name = ["technical_analyst_agent"]) ∧
    (dictLookup "technical_analyst_agent" (emaCall ind st).1.data.analyst_signals =
       some (ema_analysis ind { st.data with name := "EMAStrategy" }) ∧
     dictLookup "technical_analyst_agent" (rsiCall ind st).1.data.analyst_signals =
       some (rsi_analysis ind { st.data with name := "RSIStrategy" })) ∧
    (dictLookup "technical_analyst_agent"
        (rsiCall ind (emaCall ind st).1).1.data.analyst_signals =
       some (rsi_analysis ind
         { (emaCall ind st).1.data with name := "RSIStrategy" }) ∧
     dictLookup "technical_analyst_agent"
        (emaCall ind (rsiCall ind st).1).1.data.analyst_signals =
       some (ema_analysis ind
         { (rsiCall ind st).1.data with name := "EMAStrategy" })) ∧
    ((emaCall ind st).2.messages.map Message.content =
       [jsonDumps (analysisJ
         (ema_analysis ind { st.data with name := "EMAStrategy" }))] ∧
     (rsiCall ind st).2.messages.map Message.content =
       [jsonDumps (analysisJ
         (rsi_analysis ind { st.data with name := "RSIStrategy" }))]) := by
  refine ⟨⟨rfl, rfl⟩, ⟨?_, ?_⟩, ⟨?_, ?_⟩, ⟨rfl, rfl⟩⟩ <;>
    exact dictLookup_dictInsert_self _ _ _

/-! ## Claim C5: one adapter invocation per pair, shared outputs identical -/

/-- The distinct indicator-adapter categories the strategies use. -/
inductive AdapterKind : Type where
  | trend : AdapterKind
  | momentum : AdapterKind
  | meanReversion : AdapterKind
  | volatility : AdapterKind
deriving DecidableEq

/-- The adapter invocations the body of `EMAStrategy.__call__` performs for
one (ticker, interval) pair, in source order (ema_strategy.py lines 58-61):
each adapter is called once and its result is let-bound, then reused by the
labels that share it. -/
def emaAdapterCalls : List AdapterKind :=
  [.trend, .momentum, .meanReversion, .volatility]

/-- The adapter invocations of `RSIStrategy.__call__` per pair
(rsi_strategy.py lines 52-55). -/
def rsiAdapterCalls : List AdapterKind :=
  [.trend, .momentum, .meanReversion, .volatility]

/-- Claim C5: per (ticker, interval) pair each distinct adapter is invoked
exactly once, and labels backed by the same adapter ("ema_crossovers" /
"multi_timeframe" by trend, "rsi_trend_strength" / "momentum" by momentum)
carry identical detail entries (signal, confidence and metrics) in the
record. -/
theorem adapter_once_shared_labels :
    (∀ k : AdapterKind, emaAdapterCalls.count k = 1) ∧
    (∀ k : AdapterKind, rsiAdapterCalls.count k = 1) ∧
    (∀ (ind : Indicators) (df : DataFrame),
      (JValue.getField (emaRecord ind df) "strategy_signals").bind
          (fun s => JValue.getField s "ema_crossovers") =
        (JValue.getField (emaRecord ind df) "strategy_signals").bind
          (fun s => JValue.getField s "multi_timeframe")) ∧
    (∀ (ind : Indicators) (df : DataFrame),
      (JValue.getField (rsiRecord ind df) "strategy_signals").bind
          (fun s => JValue.getField s "rsi_trend_strength") =
        (JValue.getField (rsiRecord ind df) "strategy_signals").bind
          (fun s => JValue.getField s "momentum")) := by
  refine ⟨?_, ?_, ?_, ?_⟩
  · intro k
    cases k <;> rfl
  · intro k
    cases k <;> rfl
  · intro ind df
    simp [emaRecord, JValue.getField, dictLookup]
  · intro ind df
    simp [rsiRecord, JValue.getField, dictLookup]

/-! ## Claim C3: the record's fields -/

theorem emaCombined_confidence_range (ts ms mr vs : SignalTriple) :
    0 ≤ (emaCombined ts ms mr vs).confidence ∧
      (emaCombined ts ms mr vs).confidence ≤ 1 := by
  unfold emaCombined weighted_signal_combination
  rw [ema_usedWeight, if_neg (by norm_num : ¬ (1:ℚ) = 0)]
  exact ⟨le_min (abs_nonneg _) zero_le_one, min_le_right _ _⟩

theorem rsiCombined_confidence_range (ts ms mr vs : SignalTriple) :
    0 ≤ (rsiCombined ts ms mr vs).confidence ∧
      (rsiCombined ts ms mr vs).confidence ≤ 1 := by
  unfold rsiCombined weighted_signal_combination
  rw [rsi_usedWeight, if_neg (by norm_num : ¬ (1:ℚ) = 0)]
  exact ⟨le_min (abs_nonneg _) zero_le_one, min_le_right _ _⟩

/-- The integer percentage written for a confidence in `[0,1]` is in
`[0,100]`. -/
theorem pyRound_percent_range {c : ℚ} (h0 : 0 ≤ c) (h1 : c ≤ 1) :
    0 ≤ pyRound (c * 100) ∧ pyRound (c * 100) ≤ 100 := by
  constructor
  · exact pyRound_nonneg (by linarith)
  · refine pyRound_le_of_le ?_
    push_cast
    linarith

/-- A per-label detail entry has exactly the three documented fields, and
its confidence is an integer percentage in `[0,100]` for a valid triple. -/
theorem labelDetail_props (np : JValue → JValue) (t : SignalTriple)
    (h : validTriple t) :
    JValue.fieldKeys (labelDetail np t) = ["signal", "confidence", "metrics"] ∧
    (∃ k : ℤ, JValue.getField (labelDetail np t) "confidence" = some (.int k) ∧
      0 ≤ k ∧ k ≤ 100) := by
  refine ⟨rfl, pyRound (t.confidence * 100), ?_, ?_, ?_⟩
  · simp [labelDetail, JValue.getField, dictLookup]
  · exact (pyRound_percent_range h.1 h.2).1
  · exact (pyRound_percent_range h.1 h.2).2

/-- Counterexample to C3 as stated: the EMA record carries a fourth field,
"ema_periods", beyond the claimed signal / confidence / per-label detail. -/
theorem record_fields_counterexample :
    JValue.fieldKeys (emaRecord (constIndicators .neutral 0) DataFrame.empty) =
      ["signal", "confidence", "ema_periods", "strategy_signals"] ∧
    ("ema_periods" : String) ≠ "signal" ∧
    ("ema_periods" : String) ≠ "confidence" ∧
    ("ema_periods" : String) ≠ "strategy_signals" :=
  ⟨rfl, by simp, by simp, by simp⟩

/-- Amended claim C3: the RSI record consists exactly of signal, integer
confidence in 0–100, and the per-label detail; the EMA record additionally
carries an "ema_periods" configuration field.  In both, every per-label
detail entry holds exactly signal, integer confidence in 0–100 (given
adapter confidences in `[0,1]`) and metrics. -/
theorem record_fields_amended (ind : Indicators) (df : DataFrame)
    (h1 : validTriple (ind.calculate_trend_signals df))
    (h2 : validTriple (ind.calculate_momentum_signals df))
    (h3 : validTriple (ind.calculate_mean_reversion_signals df))
    (h4 : validTriple (ind.calculate_volatility_signals df)) :
    JValue.fieldKeys (emaRecord ind df) =
      ["signal", "confidence", "ema_periods", "strategy_signals"] ∧
    JValue.fieldKeys (rsiRecord ind df) =
      ["signal", "confidence", "strategy_signals"] ∧
    (∃ k : ℤ, JValue.getField (emaRecord ind df) "confidence" = some (.int k) ∧
      0 ≤ k ∧ k ≤ 100) ∧
    (∃ k : ℤ, JValue.getField (rsiRecord ind df) "confidence" = some (.int k) ∧
      0 ≤ k ∧ k ≤ 100) ∧
    (∀ lbl s dtl, JValue.getField (emaRecord ind df) "strategy_signals" = some s →
      JValue.getField s lbl = some dtl →
      JValue.fieldKeys dtl = ["signal", "confidence", "metrics"] ∧
      (∃ k : ℤ, JValue.getField dtl "confidence" = some (.int k) ∧
        0 ≤ k ∧ k ≤ 100)) ∧
    (∀ lbl s dtl, JValue.getField (rsiRecord ind df) "strategy_signals" = some s →
      JValue.getField s lbl = some dtl →
      JValue.fieldKeys dtl = ["signal", "confidence", "metrics"] ∧
      (∃ k : ℤ, JValue.getField dtl "confidence" = some (.int k) ∧
        0 ≤ k ∧ k ≤ 100)) := by
  refine ⟨rfl, rfl, ?_, ?_, ?_, ?_⟩
  · obtain ⟨hr0, hr1⟩ := emaCombined_confidence_range
      (ind.calculate_trend_signals df) (ind.calculate_momentum_signals df)
      (ind.calculate_mean_reversion_signals df) (ind.calculate_volatility_signals df)
    refine ⟨_, ?_, (pyRound_percent_range hr0 hr1).1, (pyRound_percent_range hr0 hr1).2⟩
    simp [emaRecord, JValue.getField, dictLookup]
  · obtain ⟨hr0, hr1⟩ := rsiCombined_confidence_range
      (ind.calculate_trend_signals df) (ind.calculate_momentum_signals df)
      (ind.calculate_mean_reversion_signals df) (ind.calculate_volatility_signals df)
    refine ⟨_, ?_, (pyRound_percent_range hr0 hr1).1, (pyRound_percent_range hr0 hr1).2⟩
    simp [rsiRecord, JValue.getField, dictLookup]
  · intro lbl s dtl hs hd
    simp [emaRecord, JValue.getField, dictLookup] at hs
    subst hs
    simp only [JValue.getField] at hd
    have hmem := mem_of_dictLookup hd
    simp only [List.mem_cons, List.not_mem_nil, or_false, Prod.mk.injEq] at hmem
    rcases hmem with ⟨hl, rfl⟩ | ⟨hl, rfl⟩ | ⟨hl, rfl⟩ | ⟨hl, rfl⟩ | ⟨hl, rfl⟩
    · exact labelDetail_props _ _ h1
    · exact labelDetail_props _ _ h2
    · exact labelDetail_props _ _ h3
    · exact labelDetail_props _ _ h1
    · exact labelDetail_props _ _ h4
  · intro lbl s dtl hs hd
    simp [rsiRecord, JValue.getField, dictLookup] at hs
    subst hs
    simp only [JValue.getField] at hd
    have hmem := mem_of_dictLookup hd
    simp only [List.mem_cons, List.not_mem_nil, or_false, Prod.mk.injEq] at hmem
    rcases hmem with ⟨hl, rfl⟩ | ⟨hl, rfl⟩ | ⟨hl, rfl⟩ | ⟨hl, rfl⟩ | ⟨hl, rfl⟩
    · exact labelDetail_props _ _ h3
    · exact labelDetail_props _ _ h1
    · exact labelDetail_props _ _ h2
    · exact labelDetail_props _ _ h4
    · exact labelDetail_props _ _ h2

/-- Witness for the amended C3 at the constant-neutral indicators. -/
theorem record_fields_amended_witness :
    validTriple (constTriple .neutral 0) ∧
    JValue.fieldKeys (emaRecord (constIndicators .neutral 0) DataFrame.empty) =
      ["signal", "confidence", "ema_periods", "strategy_signals"] :=
  ⟨⟨by norm_num [constTriple], by norm_num [constTriple]⟩,
   (record_fields_amended (constIndicators .neutral 0) DataFrame.empty
     ⟨by norm_num [constIndicators, constTriple], by norm_num [constIndicators, constTriple]⟩
     ⟨by norm_num [constIndicators, constTriple], by norm_num [constIndicators, constTriple]⟩
     ⟨by norm_num [constIndicators, constTriple], by norm_num [constIndicators, constTriple]⟩
     ⟨by norm_num [constIndicators, constTriple], by norm_num [constIndicators, constTriple]⟩).1⟩

/-! ## Claim C4: integer rounding happens only at the reporting boundary -/

theorem emaCombined_eq_formula (ts ms mr vs : SignalTriple) :
    emaCombined ts ms mr vs =
      { signal := decideDirection (fusionScore (emaSignalSet ts ms mr vs) ema_strategy_weights),
        confidence := min |fusionScore (emaSignalSet ts ms mr vs) ema_strategy_weights| 1 } := by
  unfold emaCombined weighted_signal_combination
  rw [ema_usedWeight, if_neg (by norm_num : ¬ (1:ℚ) = 0)]
  rfl

theorem rsiCombined_eq_formula (ts ms mr vs : SignalTriple) :
    rsiCombined ts ms mr vs =
      { signal := decideDirection (fusionScore (rsiSignalSet ts ms mr vs) rsi_strategy_weights),
        confidence := min |fusionScore (rsiSignalSet ts ms mr vs) rsi_strategy_weights| 1 } := by
  unfold rsiCombined weighted_signal_combination
  rw [rsi_usedWeight, if_neg (by norm_num : ¬ (1:ℚ) = 0)]
  rfl

theorem emaFusionScore_const_bullish (c : ℚ) :
    fusionScore
      (emaSignalSet (constTriple .bullish c) (constTriple .bullish c)
        (constTriple .bullish c) (constTriple .bullish c)) ema_strategy_weights = c := by
  unfold fusionScore weightedTotal usedWeight
  simp [emaSignalSet, ema_strategy_weights, dictLookup, constTriple, SignalDirection.sign]
  norm_num
  ring

theorem emaCombined_const_bullish (c : ℚ) (h0 : 0 < c) (h1 : c ≤ 1) :
    emaCombined (constTriple .bullish c) (constTriple .bullish c)
      (constTriple .bullish c) (constTriple .bullish c) =
      { signal := .bullish, confidence := c } := by
  rw [emaCombined_eq_formula, emaFusionScore_const_bullish]
  unfold decideDirection
  rw [if_pos h0]
  simp [abs_of_pos h0, min_eq_left h1]

/-- Claim C4: both strategies write `round(confidence * 100)` into the
record — for the fused consensus and for every per-label detail — while the
fusion output itself stays an exact unrounded value in `[0,1]`; a raw
consensus confidence of 0.5049 is reported as 50 and one of 0.995 as 100. -/
theorem rounding_boundary :
    (∀ (ind : Indicators) (df : DataFrame),
      JValue.getField (emaRecord ind df) "confidence" =
        some (.int (pyRound ((emaCombined (ind.calculate_trend_signals df)
          (ind.calculate_momentum_signals df)
          (ind.calculate_mean_reversion_signals df)
          (ind.calculate_volatility_signals df)).confidence * 100)))) ∧
    (∀ (ind : Indicators) (df : DataFrame),
      JValue.getField (rsiRecord ind df) "confidence" =
        some (.int (pyRound ((rsiCombined (ind.calculate_trend_signals df)
          (ind.calculate_momentum_signals df)
          (ind.calculate_mean_reversion_signals df)
          (ind.calculate_volatility_signals df)).confidence * 100)))) ∧
    (∀ np t, JValue.getField (labelDetail np t) "confidence" =
      some (.int (pyRound (t.confidence * 100)))) ∧
    (∀ ts ms mr vs, (emaCombined ts ms mr vs).confidence =
      min |fusionScore (emaSignalSet ts ms mr vs) ema_strategy_weights| 1) ∧
    (∀ ts ms mr vs, (rsiCombined ts ms mr vs).confidence =
      min |fusionScore (rsiSignalSet ts ms mr vs) rsi_strategy_weights| 1) ∧
    (emaCombined (constTriple .bullish (5049/10000)) (constTriple .bullish (5049/10000))
        (constTriple .bullish (5049/10000)) (constTriple .bullish (5049/10000))).confidence =
      5049/10000 ∧
    JValue.getField (emaRecord (constIndicators .bullish (5049/10000)) DataFrame.empty)
      "confidence" = some (.int 50) ∧
    JValue.getField (emaRecord (constIndicators .bullish (995/1000)) DataFrame.empty)
      "confidence" = some (.int 100) := by
  refine ⟨?_, ?_, ?_, ?_, ?_, ?_, ?_, ?_⟩
  · intro ind df
    simp [emaRecord, JValue.getField, dictLookup]
  · intro ind df
    simp [rsiRecord, JValue.getField, dictLookup]
  · intro np t
    simp [labelDetail, JValue.getField, dictLookup]
  · intro ts ms mr vs
    rw [emaCombined_eq_formula]
  · intro ts ms mr vs
    rw [rsiCombined_eq_formula]
  · rw [emaCombined_const_bullish (5049/10000) (by norm_num) (by norm_num)]
  · have hc := emaCombined_const_bullish (5049/10000) (by norm_num) (by norm_num)
    simp [emaRecord, JValue.getField, dictLookup, constIndicators, hc]
    unfold pyRound
    rw [ratFloor_intFloor]
    norm_num
  · have hc := emaCombined_const_bullish (995/1000) (by norm_num) (by norm_num)
    simp [emaRecord, JValue.getField, dictLookup, constIndicators, hc]
    unfold pyRound
    rw [ratFloor_intFloor]
    norm_num
